import Mathlib

/-!
A shallow embedding of the `vec_t` growable-array library (`src/vec.c`,
`src/vec.h`) and proofs about its operations.

Modelling conventions:
* A `vec_t*` value is modelled by the structure `Vec`; the `void* data`
  pointer is an `Option (List Nat)`: `none` is the NULL pointer, and
  `some buf` is an allocated heap block whose bytes are the list entries.
* `malloc n` yields a fresh block of `n` bytes (contents modelled as zeros;
  no proved statement depends on the values of uninitialized bytes).
* `realloc buf n` yields a block of exactly `n` bytes preserving the first
  `min n buf.length` bytes (`resizeBuf`).
* Functions that allocate take an `allocOk : Bool` oracle: `true` means
  every allocation in the call succeeds, `false` means the (re)allocation
  fails, i.e. `malloc`/`realloc` return NULL.  Per C `realloc` semantics a
  failed call leaves the old block alive, but the C source overwrites the
  pointer with the NULL result, so the modelled state's `data` becomes
  `none` on that path, exactly as in the source.
* `memcpy`/`memmove` over byte ranges are `writeBytes`/`readBytes`; the
  source region of a `memmove` is captured before the write, matching
  `memmove`'s as-if-via-a-temporary semantics.
* Functions that can call `exit(-1)` (the out-of-bounds panic paths, and
  the `elem_size == 0` panic of the constructors) return an `Option`;
  `none` is process termination.  Allocation of the `vec_t` record itself
  is assumed to succeed (record allocation failure is not exercised by any
  claim).
* The `!self` / `!other` NULL-pointer checks of the C source are vacuous
  in the model, since a Lean `Vec` value always denotes a valid record.
-/

def VEC_ERR : Nat := 0

def VEC_OK : Nat := 1

def VEC_GROWTH_FACTOR : Nat := 2

structure Vec where
  len : Nat
  capacity : Nat
  elem_size : Nat
  data : Option (List Nat)
deriving Repr, DecidableEq

/-- Model of `memcpy(buf + off, src, src.length)`: overwrite the bytes of `buf`
starting at `off` with the bytes of `src`. -/
def writeBytes (buf : List Nat) (off : Nat) (src : List Nat) : List Nat :=
  buf.take off ++ src ++ buf.drop (off + src.length)

/-- Read `n` bytes of `buf` starting at offset `off`. -/
def readBytes (buf : List Nat) (off n : Nat) : List Nat :=
  (buf.drop off).take n

/-- Model of `malloc n`: a fresh block of `n` bytes. -/
def mallocBytes (n : Nat) : List Nat :=
  List.replicate n 0

/-- Model of `realloc buf n`: a block of exactly `n` bytes whose prefix is the old
contents. -/
def resizeBuf (buf : List Nat) (n : Nat) : List Nat :=
  buf.take n ++ List.replicate (n - buf.length) 0

/-- The initialized bytes `[0, len * elem_size)` of the vector's buffer. -/
def liveBytes (v : Vec) : List Nat :=
  match v.data with
  | some buf => buf.take (v.len * v.elem_size)
  | none => []

/-- The bytes of the element stored at index `i`. -/
def readElem (v : Vec) (i : Nat) : List Nat :=
  match v.data with
  | some buf => readBytes buf (i * v.elem_size) v.elem_size
  | none => []

/-- The sequence of live elements of the vector, as byte blocks. -/
def elemsOf (v : Vec) : List (List Nat) :=
  (List.range v.len).map (readElem v)

/-- Number of bytes of the allocated buffer (0 when the buffer is absent). -/
def bufSize (v : Vec) : Nat :=
  match v.data with
  | some buf => buf.length
  | none => 0

/-- The state invariants of §3 of the spec: `length ≤ capacity`; a positive
capacity is backed by a buffer of at least `capacity * elementSize` bytes;
a zero capacity means the buffer is absent. -/
def inv (v : Vec) : Prop :=
  v.len ≤ v.capacity ∧
  (0 < v.capacity → v.data ≠ none ∧ v.capacity * v.elem_size ≤ bufSize v) ∧
  (v.capacity = 0 → v.data = none)

instance (v : Vec) : Decidable (inv v) := by
  unfold inv; infer_instance

/-- Model of `vec_new` (vec.c:266): empty vector, no buffer allocated; exits the
process when `elem_size == 0`. -/
def vec_new (elem_size : Nat) : Option Vec :=
  if elem_size = 0 then none
  else some { len := 0, capacity := 0, elem_size := elem_size, data := none }

/-- Model of `vec_with_capacity` (vec.c:297): eagerly allocates `capacity * elem_size`
bytes; behaves as `vec_new` when `capacity == 0`. -/
def vec_with_capacity (capacity elem_size : Nat) : Option Vec :=
  if elem_size = 0 then none
  else if capacity = 0 then vec_new elem_size
  else some { len := 0, capacity := capacity, elem_size := elem_size,
              data := some (mallocBytes (capacity * elem_size)) }

/-- Model of `vec_from_raw_parts` (vec.c:377): builds a record via
`vec_with_capacity(len, elem_size)` and then overwrites its `data` pointer
with the caller's raw pointer (returning NULL when the raw pointer is
NULL).  Note the source never assigns `v->len`. -/
def vec_from_raw_parts (raw_ptr : Option (List Nat)) (len elem_size : Nat) :
    Option Vec :=
  if elem_size = 0 then none
  else
    match vec_with_capacity len elem_size, raw_ptr with
    | some v, some buf => some { v with data := some buf }
    | _, _ => none

/-- Model of `vec_copy` (vec.c:409): copies `len` and `capacity` of `self` into
`other` (note: not `elem_size`); when `self` has a buffer, frees `other`'s
buffer, allocates `self.elem_size * self.capacity` bytes and `memcpy`s that
many bytes across.  Returns `(code, self, other)`. -/
def vec_copy (allocOk : Bool) (self other : Vec) : Nat × Vec × Vec :=
  let other1 : Vec := { other with len := self.len, capacity := self.capacity }
  match self.data with
  | none => (VEC_OK, self, other1)
  | some buf =>
    let n := self.elem_size * self.capacity
    if allocOk then
      (VEC_OK, self,
        { other1 with data := some (writeBytes (mallocBytes n) 0 (readBytes buf 0 n)) })
    else
      (VEC_ERR, self, { other1 with data := none })

/-- Model of `vec_resize` (vec.c:580): errors when the buffer is absent or
`len > new_capacity`; a no-op success when `capacity ≥ new_capacity`;
otherwise sets `capacity := new_capacity` and `realloc`s (on a failed
`realloc` the `data` pointer is overwritten with NULL). -/
def vec_resize (allocOk : Bool) (self : Vec) (new_capacity : Nat) : Nat × Vec :=
  match self.data with
  | none => (VEC_ERR, self)
  | some buf =>
    if self.len > new_capacity then (VEC_ERR, self)
    else if self.capacity ≥ new_capacity then (VEC_OK, self)
    else
      let self1 := { self with capacity := new_capacity }
      if allocOk then
        (VEC_OK, { self1 with data := some (resizeBuf buf (new_capacity * self.elem_size)) })
      else
        (VEC_ERR, { self1 with data := none })

/-- Model of `vec_reserve` (vec.c:605): bumps `capacity` by `additional` and then
`realloc`s to the new byte size (the capacity update happens before the
reallocation; on failure `data` becomes NULL). -/
def vec_reserve (allocOk : Bool) (self : Vec) (additional : Nat) : Nat × Vec :=
  match self.data with
  | none => (VEC_ERR, self)
  | some buf =>
    let self1 := { self with capacity := self.capacity + additional }
    if allocOk then
      (VEC_OK, { self1 with data := some (resizeBuf buf (self1.capacity * self.elem_size)) })
    else
      (VEC_ERR, { self1 with data := none })

/-- Model of `vec_shrink_to_fit` (vec.c:625): sets `capacity := len` and `realloc`s
to the new byte size (on failure `data` becomes NULL). -/
def vec_shrink_to_fit (allocOk : Bool) (self : Vec) : Nat × Vec :=
  match self.data with
  | none => (VEC_ERR, self)
  | some buf =>
    let self1 := { self with capacity := self.len }
    if allocOk then
      (VEC_OK, { self1 with data := some (resizeBuf buf (self1.capacity * self.elem_size)) })
    else
      (VEC_ERR, { self1 with data := none })

/-- Model of `vec_clear` (vec.c:686): zeroes `len` and `capacity` and frees the
buffer. -/
def vec_clear (self : Vec) : Nat × Vec :=
  (VEC_OK, { self with len := 0, capacity := 0, data := none })

/-- Model of `vec_truncate` (vec.c:646): errors when the buffer is absent; clears
when `new_len == 0`; returns `VEC_OK` without any change when
`len ≥ new_len`; otherwise copies the first `new_len * elem_size` bytes
into a fresh buffer of exactly that size and sets
`len := capacity := new_len`. -/
def vec_truncate (allocOk : Bool) (self : Vec) (new_len : Nat) : Nat × Vec :=
  match self.data with
  | none => (VEC_ERR, self)
  | some buf =>
    if new_len = 0 then
      (VEC_OK, (vec_clear self).2)
    else if self.len ≥ new_len then
      (VEC_OK, self)
    else if allocOk then
      let tmp := writeBytes (mallocBytes (new_len * self.elem_size)) 0
        (readBytes buf 0 (new_len * self.elem_size))
      (VEC_OK, { self with len := new_len, capacity := new_len, data := some tmp })
    else
      (VEC_ERR, self)

/-- Model of `vec_push` (vec.c:711): allocates a one-slot buffer when the buffer is
absent (the capacity field is set to 1 before the `malloc`); reserves
`VEC_GROWTH_FACTOR` more slots when `len == capacity`; then `memcpy`s
`elem_size` bytes of `elem` at offset `len * elem_size` and increments
`len`. -/
def vec_push (allocOk : Bool) (self : Vec) (elem : List Nat) : Nat × Vec :=
  let alloc : Nat × Vec :=
    match self.data with
    | none =>
      if allocOk then
        (VEC_OK, { self with capacity := 1, data := some (mallocBytes (1 * self.elem_size)) })
      else
        (VEC_ERR, { self with capacity := 1, data := none })
    | some _ => (VEC_OK, self)
  if alloc.1 = VEC_ERR then (VEC_ERR, alloc.2)
  else
    let v := alloc.2
    let grow : Nat × Vec :=
      if v.len = v.capacity then vec_reserve allocOk v VEC_GROWTH_FACTOR
      else (VEC_OK, v)
    if grow.1 = VEC_ERR then (VEC_ERR, grow.2)
    else
      let w := grow.2
      match w.data with
      | some buf =>
        (VEC_OK, { w with
                   len := w.len + 1,
                   data := some (writeBytes buf (w.len * w.elem_size) (readBytes elem 0 w.elem_size)) })
      | none => (VEC_OK, { w with len := w.len + 1 })

/-- Model of `vec_insert` (vec.c:757): exits the process when `index ≥ len` (the
`none` result); errors when the buffer is absent; reserves
`VEC_GROWTH_FACTOR` more slots when `len == capacity`; then `memmove`s the
byte range `[index*es, len*es)` one slot to the right, `memcpy`s
`elem_size` bytes of `elem` at `index*es` and increments `len`. -/
def vec_insert (allocOk : Bool) (self : Vec) (elem : List Nat) (index : Nat) :
    Option (Nat × Vec) :=
  if index ≥ self.len then none
  else
    match self.data with
    | none => some (VEC_ERR, self)
    | some _ =>
      let grow : Nat × Vec :=
        if self.len = self.capacity then vec_reserve allocOk self VEC_GROWTH_FACTOR
        else (VEC_OK, self)
      if grow.1 = VEC_ERR then some (VEC_ERR, grow.2)
      else
        let w := grow.2
        match w.data with
        | some buf =>
          let o := index * w.elem_size
          let moved := writeBytes buf (o + w.elem_size)
            (readBytes buf o ((w.len - index) * w.elem_size))
          some (VEC_OK, { w with
                          len := w.len + 1,
                          data := some (writeBytes moved o (readBytes elem 0 w.elem_size)) })
        | none => some (VEC_OK, { w with len := w.len + 1 })

/-- Model of `vec_swap_delete` (vec.c:899): exits the process when `index ≥ len`;
errors when the buffer is absent; otherwise `memmove`s the last element's
bytes over the element at `index` and decrements `len`. -/
def vec_swap_delete (self : Vec) (index : Nat) : Option (Nat × Vec) :=
  if index ≥ self.len then none
  else
    match self.data with
    | none => some (VEC_ERR, self)
    | some buf =>
      some (VEC_OK, { self with
        len := self.len - 1,
        data := some (writeBytes buf (index * self.elem_size)
          (readBytes buf ((self.len - 1) * self.elem_size) self.elem_size)) })

/-- Model of `vec_append` (vec.c:982): errors when `other`'s buffer is absent; when
`self`'s buffer is absent, sets `len := 0`, `capacity := other.len` and
`malloc`s (failure leaves the mutated scalars with a NULL buffer); when
the slack is insufficient, reserves `other.len` more slots; then `memcpy`s
`other.len * other.elem_size` bytes after `self`'s last element, adds
`other.len` to `self.len` and clears `other`. -/
def vec_append (allocOk : Bool) (self other : Vec) : Nat × Vec × Vec :=
  match other.data with
  | none => (VEC_ERR, self, other)
  | some obuf =>
    let prep : Nat × Vec :=
      match self.data with
      | none =>
        let s1 : Vec := { self with len := 0, capacity := other.len }
        if allocOk then
          (VEC_OK, { s1 with data := some (mallocBytes (s1.capacity * self.elem_size)) })
        else
          (VEC_ERR, { s1 with data := none })
      | some _ =>
        if self.len + other.len > self.capacity then vec_reserve allocOk self other.len
        else (VEC_OK, self)
    if prep.1 = VEC_ERR then (VEC_ERR, prep.2, other)
    else
      let w := prep.2
      match w.data with
      | some buf =>
        (VEC_OK,
         { w with
           len := w.len + other.len,
           data := some (writeBytes buf (w.len * w.elem_size)
             (readBytes obuf 0 (other.len * other.elem_size))) },
         (vec_clear other).2)
      | none => (VEC_OK, { w with len := w.len + other.len }, (vec_clear other).2)

/-- Model of `vec_split_at` (vec.c:1032): exits the process when `index ≥ self.len`;
errors when `self`'s buffer is absent; when `other`'s buffer is absent,
sets `other.capacity := self.len - index` and `malloc`s (using `self`'s
element size); when `other.len < self.len - index`, reserves; then
`memcpy`s the byte range `[index*es, len*es)` of `self` to the start of
`other`'s buffer, sets `other.len := self.len - index` and
`self.len := index`. -/
def vec_split_at (allocOk : Bool) (self other : Vec) (index : Nat) :
    Option (Nat × Vec × Vec) :=
  if index ≥ self.len then none
  else
    match self.data with
    | none => some (VEC_ERR, self, other)
    | some buf =>
      let prep : Nat × Vec :=
        match other.data with
        | none =>
          let o1 : Vec := { other with capacity := self.len - index }
          if allocOk then
            (VEC_OK, { o1 with data := some (mallocBytes (o1.capacity * self.elem_size)) })
          else
            (VEC_ERR, { o1 with data := none })
        | some _ =>
          if other.len < self.len - index then vec_reserve allocOk other (self.len - index)
          else (VEC_OK, other)
      if prep.1 = VEC_ERR then some (VEC_ERR, self, prep.2)
      else
        let w := prep.2
        match w.data with
        | some obuf =>
          some (VEC_OK, { self with len := index },
            { w with
              len := self.len - index,
              data := some (writeBytes obuf 0
                (readBytes buf (index * self.elem_size) ((self.len - index) * self.elem_size))) })
        | none => some (VEC_OK, { self with len := index }, { w with len := self.len - index })

/-! ## Concrete states used by the claim theorems -/

def c1A : Vec := ⟨0, 0, 4, none⟩

def c1B : Vec := ⟨0, 2, 4, some (mallocBytes 8)⟩

def c2v : Vec := ⟨2, 2, 1, some [5, 6]⟩

def c3v : Vec := ⟨1, 1, 1, some [7]⟩

def c5A : Vec := ⟨1, 2, 2, some [1, 2, 0, 0]⟩

def c5B : Vec := ⟨0, 0, 1, none⟩

def c6v : Vec := ⟨1, 1, 1, some [5]⟩

def c7v : Vec := ⟨0, 0, 4, none⟩

def c9v0 : Vec := ⟨0, 0, 4, none⟩

def c9v1 : Vec := (vec_push true c9v0 [1, 0, 0, 0]).2

def c9v2 : Vec := (vec_push true c9v1 [2, 0, 0, 0]).2

def c9v3 : Vec := (vec_push true c9v2 [3, 0, 0, 0]).2

def c9v4 : Vec := ((vec_insert true c9v3 [0, 0, 0, 0] 0).getD (VEC_ERR, c9v3)).2

def c9v5 : Vec := ((vec_swap_delete c9v4 1).getD (VEC_ERR, c9v4)).2

/-- C1: the state invariants are not preserved by every operation:
`vec_copy` from a freshly created source (no buffer) into a destination
created with capacity 2 returns `VEC_OK` but leaves the destination with
`capacity == 0` while its buffer is still present, violating the
"capacity == 0 implies buffer absent" invariant. -/
theorem c1_copy_breaks_invariant :
    vec_new 4 = some c1A ∧ vec_with_capacity 2 4 = some c1B ∧
    inv c1A ∧ inv c1B ∧
    (vec_copy true c1A c1B).1 = VEC_OK ∧
    ¬ inv (vec_copy true c1A c1B).2.2 := by decide

/-- C2: `vec_truncate`'s guard is reversed with respect to its own
documentation: on a vector of length 2, `truncate(1)` returns `VEC_OK`
without changing anything (length stays 2 instead of becoming
`min(length, newLen) = 1`), while `truncate(3)` grows the vector to
length 3; only `truncate(0)` behaves as documented (like `clear`). -/
theorem c2_truncate_guard_reversed :
    inv c2v ∧
    vec_truncate true c2v 1 = (VEC_OK, c2v) ∧
    (vec_truncate true c2v 1).2.len = 2 ∧
    (vec_truncate true c2v 3).2.len = 3 ∧
    (vec_truncate true c2v 3).2.capacity = 3 ∧
    vec_truncate true c2v 0 = (VEC_OK, ⟨0, 0, 1, none⟩) := by decide

/-- C3 counterexample: on a valid vector of length 1, `vec_insert` at
`index == length == 1` does not succeed as the claim states; it takes the
fatal out-of-bounds path (modelled by `none`). -/
theorem c3_insert_at_length_panics :
    inv c3v ∧ vec_insert true c3v [9] 1 = none := by decide

/-- C5: `vec_copy` does not overwrite all of the destination's scalar
fields: `elem_size` is never copied.  Copying a vector with 2-byte
elements into a vector with 1-byte elements returns `VEC_OK`, yet the
destination keeps element size 1 and its live element at index 0 differs
from the source's element at index 0. -/
theorem c5_copy_does_not_copy_elem_size :
    inv c5A ∧ inv c5B ∧
    (vec_copy true c5A c5B).1 = VEC_OK ∧
    (vec_copy true c5A c5B).2.2.elem_size ≠ c5A.elem_size ∧
    readElem (vec_copy true c5A c5B).2.2 0 ≠ readElem c5A 0 := by decide

/-- C6 counterexample: when the reallocation inside `vec_reserve` fails,
the function returns `VEC_ERR` but the vector is not left in its
last-known-valid state: its capacity has already been bumped from 1 to 2
and its buffer pointer has been overwritten with NULL. -/
theorem c6_failed_realloc_mutates_state :
    inv c6v ∧
    (vec_reserve false c6v 1).1 = VEC_ERR ∧
    (vec_reserve false c6v 1).2 ≠ c6v ∧
    (vec_reserve false c6v 1).2.capacity = 2 ∧
    (vec_reserve false c6v 1).2.data = none := by decide

/-- C7 counterexample: `vec_resize` (the spec's `ensureCapacity`) does not
succeed on a freshly created vector whose buffer is absent: it returns
`VEC_ERR` and changes nothing, even though reallocation was available. -/
theorem c7_resize_fails_without_buffer :
    vec_new 4 = some c7v ∧ inv c7v ∧
    vec_resize true c7v 5 = (VEC_ERR, c7v) := by decide

/-- C8: `vec_from_raw_parts(raw, 1, 4)` on a 4-byte raw buffer produces a
vector whose capacity is 1 and whose buffer is the raw buffer, but whose
length is 0, not 1: the source never assigns the `len` field, so the
buffer's elements do not become live elements. -/
theorem c8_from_raw_parts_ignores_len :
    (vec_from_raw_parts (some [1, 2, 3, 4]) 1 4).map Vec.len = some 0 ∧
    (vec_from_raw_parts (some [1, 2, 3, 4]) 1 4).map Vec.capacity = some 1 ∧
    (vec_from_raw_parts (some [1, 2, 3, 4]) 1 4).map Vec.data = some (some [1, 2, 3, 4]) ∧
    (vec_from_raw_parts (some [1, 2, 3, 4]) 1 4).map Vec.len ≠ some 1 := by decide

/-- C9: starting from an empty vector of 4-byte elements, pushing 1, 2, 3
and inserting 0 at index 0 yields the element sequence [0, 1, 2, 3] of
length 4, and a subsequent `vec_swap_delete(1)` yields exactly
[0, 3, 2] of length 3. -/
theorem c9_concrete_scenario :
    vec_new 4 = some c9v0 ∧
    (vec_push true c9v0 [1, 0, 0, 0]).1 = VEC_OK ∧
    (vec_push true c9v1 [2, 0, 0, 0]).1 = VEC_OK ∧
    (vec_push true c9v2 [3, 0, 0, 0]).1 = VEC_OK ∧
    (vec_insert true c9v3 [0, 0, 0, 0] 0).map Prod.fst = some VEC_OK ∧
    c9v4.len = 4 ∧
    elemsOf c9v4 = [[0, 0, 0, 0], [1, 0, 0, 0], [2, 0, 0, 0], [3, 0, 0, 0]] ∧
    (vec_swap_delete c9v4 1).map Prod.fst = some VEC_OK ∧
    c9v5.len = 3 ∧
    elemsOf c9v5 = [[0, 0, 0, 0], [3, 0, 0, 0], [2, 0, 0, 0]] := by decide

/-- C10: `vec_append` with a source whose buffer was never allocated
returns `VEC_ERR` (distinguishable from `VEC_OK`) rather than succeeding
as a no-op, and both vectors are left unchanged. -/
theorem c10_append_unallocated_src (dst src : Vec) (ok : Bool)
    (h : src.data = none) :
    vec_append ok dst src = (VEC_ERR, dst, src) ∧ VEC_ERR ≠ VEC_OK := by
  refine ⟨?_, by decide⟩
  simp only [vec_append, h]

/-- Witness for C10 at a concrete destination and a freshly created
source. -/
theorem c10_append_unallocated_src_witness :
    vec_append true ⟨1, 1, 1, some [5]⟩ ⟨0, 0, 1, none⟩ =
      (VEC_ERR, ⟨1, 1, 1, some [5]⟩, ⟨0, 0, 1, none⟩) ∧ VEC_ERR ≠ VEC_OK :=
  c10_append_unallocated_src ⟨1, 1, 1, some [5]⟩ ⟨0, 0, 1, none⟩ true rfl

/-! ## Helper lemmas about the byte-buffer primitives -/

lemma resizeBuf_length (buf : List Nat) (m : Nat) : (resizeBuf buf m).length = m := by
  simp [resizeBuf]
  omega

lemma resizeBuf_take (buf : List Nat) (m k : Nat) (h1 : k ≤ m) (h2 : k ≤ buf.length) :
    (resizeBuf buf m).take k = buf.take k := by
  unfold resizeBuf
  rw [List.take_append_of_le_length (by simp; omega), List.take_take,
    Nat.min_eq_left h1]

/-- C6 amended: when the reallocation inside `vec_reserve`,
`vec_shrink_to_fit` or `vec_resize` fails, the operation returns `VEC_ERR`
(distinguishable from `VEC_OK`) and `len` and `elem_size` are unchanged,
but the vector is not left in its last-known-valid state: `capacity` has
already been overwritten with the attempted new capacity and the buffer
pointer has been overwritten with NULL. -/
theorem c6_failure_state_amended (v : Vec) (buf : List Nat) (a n : Nat)
    (hd : v.data = some buf) (h1 : v.len ≤ n) (h2 : v.capacity < n) :
    vec_reserve false v a =
      (VEC_ERR, { v with capacity := v.capacity + a, data := none }) ∧
    vec_shrink_to_fit false v =
      (VEC_ERR, { v with capacity := v.len, data := none }) ∧
    vec_resize false v n =
      (VEC_ERR, { v with capacity := n, data := none }) ∧
    VEC_ERR ≠ VEC_OK := by
  refine ⟨?_, ?_, ?_, by decide⟩
  · simp only [vec_reserve, hd, Bool.false_eq_true, if_false]
  · simp only [vec_shrink_to_fit, hd, Bool.false_eq_true, if_false]
  · simp only [vec_resize, hd]
    rw [if_neg (by omega), if_neg (by omega)]
    simp only [Bool.false_eq_true, if_false]

/-- Witness for C6 at a concrete vector. -/
theorem c6_failure_state_amended_witness :
    vec_reserve false ⟨1, 1, 1, some [5]⟩ 1 = (VEC_ERR, ⟨1, 2, 1, none⟩) ∧
    vec_shrink_to_fit false ⟨1, 1, 1, some [5]⟩ = (VEC_ERR, ⟨1, 1, 1, none⟩) ∧
    vec_resize false ⟨1, 1, 1, some [5]⟩ 2 = (VEC_ERR, ⟨1, 2, 1, none⟩) ∧
    VEC_ERR ≠ VEC_OK :=
  c6_failure_state_amended ⟨1, 1, 1, some [5]⟩ [5] 1 2 rfl (by decide) (by decide)

/-- C7 amended: on a vector whose buffer is present, `vec_resize` fails
(no-op) when `newCapacity < length`, is a successful no-op when
`length ≤ newCapacity ≤ capacity`, and when `newCapacity > capacity` grows
the buffer to exactly `newCapacity` slots preserving the live bytes at the
same positions; a vector whose buffer is absent is rejected with `VEC_ERR`
(shown separately by the counterexample). -/
theorem c7_resize_amended (v : Vec) (buf : List Nat) (n : Nat)
    (hd : v.data = some buf) (hbl : v.capacity * v.elem_size ≤ buf.length)
    (hlc : v.len ≤ v.capacity) :
    (n < v.len → vec_resize true v n = (VEC_ERR, v)) ∧
    (v.len ≤ n → n ≤ v.capacity → vec_resize true v n = (VEC_OK, v)) ∧
    (v.capacity < n →
      ∃ buf', vec_resize true v n =
          (VEC_OK, { v with capacity := n, data := some buf' }) ∧
        buf'.length = n * v.elem_size ∧
        buf'.take (v.len * v.elem_size) = buf.take (v.len * v.elem_size)) := by
  refine ⟨?_, ?_, ?_⟩
  · intro h
    simp only [vec_resize, hd]
    rw [if_pos (by omega)]
  · intro ha hb
    simp only [vec_resize, hd]
    rw [if_neg (by omega), if_pos (by omega)]
  · intro h
    have hlen : v.len * v.elem_size ≤ v.capacity * v.elem_size :=
      Nat.mul_le_mul_right _ hlc
    refine ⟨resizeBuf buf (n * v.elem_size), ?_, resizeBuf_length _ _, ?_⟩
    · simp only [vec_resize, hd]
      rw [if_neg (by omega), if_neg (by omega)]
      simp
    · exact resizeBuf_take _ _ _
        (Nat.mul_le_mul_right _ (by omega)) (by omega)

/-- Witness for C7 at a concrete vector, exercising the growth case. -/
theorem c7_resize_amended_witness :
    ∃ buf', vec_resize true ⟨1, 2, 1, some [7, 0]⟩ 5 =
        (VEC_OK, ⟨1, 5, 1, some buf'⟩) ∧
      buf'.length = 5 * 1 ∧ buf'.take (1 * 1) = [7, 0].take (1 * 1) :=
  (c7_resize_amended ⟨1, 2, 1, some [7, 0]⟩ [7, 0] 5 rfl (by decide)
    (by decide)).2.2 (by decide)

lemma resizeBuf_read (buf : List Nat) (m o L : Nat) (h1 : o + L ≤ m)
    (h2 : o + L ≤ buf.length) :
    ((resizeBuf buf m).drop o).take L = (buf.drop o).take L := by
  have e1 : ((resizeBuf buf m).take (o + L)).drop o
      = ((resizeBuf buf m).drop o).take L := by
    rw [List.drop_take]
    congr 1
    omega
  have e2 : (buf.take (o + L)).drop o = (buf.drop o).take L := by
    rw [List.drop_take]
    congr 1
    omega
  rw [← e1, ← e2, resizeBuf_take buf m (o + L) h1 h2]

/-- The byte-level effect of the `memmove`-then-`memcpy` pair of
`vec_insert`: on a buffer large enough to hold `o + L + es` bytes, moving
the range `[o, o + L)` to `[o + es, o + es + L)` and then writing the
`es`-byte element at `o` yields (up to `o + es + L`) the original prefix,
the element, and the original range. -/
lemma insert_surgery (buf elem : List Nat) (o L es : Nat)
    (hb : o + L + es ≤ buf.length) (he : elem.length = es) :
    (writeBytes (writeBytes buf (o + es) (readBytes buf o L)) o
        (readBytes elem 0 es)).take (o + es + L)
      = buf.take o ++ elem ++ (buf.drop o).take L := by
  have hS : (readBytes buf o L).length = L := by
    simp [readBytes]
    omega
  have hE : readBytes elem 0 es = elem := by
    simp only [readBytes, List.drop_zero, ← he, List.take_length]
  have hInner : writeBytes buf (o + es) (readBytes buf o L)
      = buf.take (o + es) ++ (readBytes buf o L ++ buf.drop (o + es + L)) := by
    rw [writeBytes, hS, List.append_assoc]
  rw [hInner, writeBytes, hE, he]
  have h1 : ((buf.take (o + es) ++ (readBytes buf o L ++ buf.drop (o + es + L))).take o)
      = buf.take o := by
    rw [List.take_append_of_le_length (by simp; omega), List.take_take,
      Nat.min_eq_left (Nat.le_add_right o es)]
  have h2 : ((buf.take (o + es) ++ (readBytes buf o L ++ buf.drop (o + es + L))).drop (o + es))
      = readBytes buf o L ++ buf.drop (o + es + L) := by
    rw [List.drop_append_of_le_length (by simp; omega), List.drop_take]
    simp
  rw [h1, h2]
  have hlAE : (buf.take o ++ elem).length = o + es := by
    simp
    omega
  rw [List.take_append_eq_append_take, hlAE,
    List.take_of_length_le (by rw [hlAE]; omega),
    show o + es + L - (o + es) = L by omega,
    List.take_append_of_le_length (by rw [hS])]
  simp [readBytes, List.take_take]

/-- C3 amended: for every valid vector with a buffer and every
`index < length`, `vec_insert` succeeds (growing by `VEC_GROWTH_FACTOR`
slots when `length == capacity`), increments the length, and the live
bytes become the old live bytes with the element's bytes inserted at slot
`index` (i.e. slots `[index, length)` are shifted right by one slot). -/
theorem c3_insert_amended (v : Vec) (buf elem : List Nat) (index : Nat)
    (hd : v.data = some buf) (hbl : v.capacity * v.elem_size ≤ buf.length)
    (hlc : v.len ≤ v.capacity) (hes : elem.length = v.elem_size)
    (hi : index < v.len) :
    ∃ v', vec_insert true v elem index = some (VEC_OK, v') ∧
      v'.len = v.len + 1 ∧ v'.elem_size = v.elem_size ∧ v'.len ≤ v'.capacity ∧
      liveBytes v' = (liveBytes v).take (index * v.elem_size) ++ elem ++
        (liveBytes v).drop (index * v.elem_size) := by
  have hm1 : index * v.elem_size ≤ v.len * v.elem_size :=
    Nat.mul_le_mul_right _ hi.le
  have hm2 : v.len * v.elem_size ≤ v.capacity * v.elem_size :=
    Nat.mul_le_mul_right _ hlc
  have hsub : (v.len - index) * v.elem_size
      = v.len * v.elem_size - index * v.elem_size := Nat.sub_mul _ _ _
  have hsucc : (v.len + 1) * v.elem_size
      = v.len * v.elem_size + v.elem_size := by
    rw [Nat.add_mul, Nat.one_mul]
  have hACC : index * v.elem_size + (v.len - index) * v.elem_size
      = v.len * v.elem_size := by
    rw [← Nat.add_mul, Nat.add_sub_cancel' hi.le]
  have hlive : liveBytes v = buf.take (v.len * v.elem_size) := by
    simp [liveBytes, hd]
  have htake : (liveBytes v).take (index * v.elem_size)
      = buf.take (index * v.elem_size) := by
    rw [hlive, List.take_take, Nat.min_eq_left hm1]
  have hdrop : (liveBytes v).drop (index * v.elem_size)
      = (buf.drop (index * v.elem_size)).take ((v.len - index) * v.elem_size) := by
    rw [hlive, List.drop_take, hsub]
  have hnge : (index ≥ v.len) = False := eq_false (by omega)
  have hOE : (VEC_OK = VEC_ERR) = False := by decide
  have hNN : index * v.elem_size + v.elem_size + (v.len - index) * v.elem_size
      = (v.len + 1) * v.elem_size := by
    rw [Nat.add_right_comm, hACC, ← hsucc]
  by_cases hcap : v.len = v.capacity
  · -- growth path: reserve VEC_GROWTH_FACTOR more slots first
    have hcapT : (v.len = v.capacity) = True := eq_true hcap
    have hGF1 : 1 ≤ VEC_GROWTH_FACTOR := by decide
    have hcapGF : v.capacity * v.elem_size
        ≤ (v.capacity + VEC_GROWTH_FACTOR) * v.elem_size :=
      Nat.mul_le_mul_right _ (Nat.le_add_right _ _)
    refine ⟨⟨v.len + 1, v.capacity + VEC_GROWTH_FACTOR, v.elem_size,
      some (writeBytes (writeBytes
        (resizeBuf buf ((v.capacity + VEC_GROWTH_FACTOR) * v.elem_size))
        (index * v.elem_size + v.elem_size)
        (readBytes (resizeBuf buf ((v.capacity + VEC_GROWTH_FACTOR) * v.elem_size))
          (index * v.elem_size) ((v.len - index) * v.elem_size)))
        (index * v.elem_size) (readBytes elem 0 v.elem_size))⟩,
      ?_, rfl, rfl, ?_, ?_⟩
    · simp only [vec_insert, vec_reserve, hd, hnge, hcapT, hOE, if_true, if_false,
        eq_self_iff_true, ite_true, ite_false]
    · show v.len + 1 ≤ v.capacity + VEC_GROWTH_FACTOR
      rw [hcap]
      exact Nat.add_le_add_left hGF1 _
    · have hlenU : (resizeBuf buf ((v.capacity + VEC_GROWTH_FACTOR) * v.elem_size)).length
          = (v.capacity + VEC_GROWTH_FACTOR) * v.elem_size := resizeBuf_length _ _
      have hsurg := insert_surgery
        (resizeBuf buf ((v.capacity + VEC_GROWTH_FACTOR) * v.elem_size)) elem
        (index * v.elem_size) ((v.len - index) * v.elem_size) v.elem_size
        (by rw [hlenU, hACC, ← hsucc]
            exact Nat.mul_le_mul_right _ (by omega)) hes
      show (writeBytes _ _ _).take ((v.len + 1) * v.elem_size) = _
      rw [← hNN, hsurg, htake, hdrop,
        resizeBuf_take buf _ (index * v.elem_size)
          (le_trans (le_trans hm1 hm2) hcapGF) (le_trans (le_trans hm1 hm2) hbl),
        resizeBuf_read buf _ (index * v.elem_size) ((v.len - index) * v.elem_size)
          (by rw [hACC]; exact le_trans hm2 hcapGF)
          (by rw [hACC]; exact le_trans hm2 hbl)]
  · -- no reallocation: len < capacity
    have hcapF : (v.len = v.capacity) = False := eq_false hcap
    have hroom : (v.len + 1) * v.elem_size ≤ buf.length :=
      le_trans (Nat.mul_le_mul_right _ (show v.len + 1 ≤ v.capacity by omega)) hbl
    refine ⟨⟨v.len + 1, v.capacity, v.elem_size,
      some (writeBytes (writeBytes buf (index * v.elem_size + v.elem_size)
        (readBytes buf (index * v.elem_size) ((v.len - index) * v.elem_size)))
        (index * v.elem_size) (readBytes elem 0 v.elem_size))⟩,
      ?_, rfl, rfl, ?_, ?_⟩
    · simp only [vec_insert, hd, hnge, hcapF, hOE, if_true, if_false,
        eq_self_iff_true, ite_true, ite_false]
    · show v.len + 1 ≤ v.capacity
      omega
    · have hsurg := insert_surgery buf elem (index * v.elem_size)
        ((v.len - index) * v.elem_size) v.elem_size
        (by rw [hACC, ← hsucc]; exact hroom) hes
      show (writeBytes _ _ _).take ((v.len + 1) * v.elem_size) = _
      rw [← hNN, hsurg, htake, hdrop]

/-- Witness for C3 at a concrete vector (full vector, so the growth path
is exercised). -/
theorem c3_insert_amended_witness :
    ∃ v', vec_insert true ⟨2, 2, 1, some [1, 2]⟩ [9] 0 = some (VEC_OK, v') ∧
      v'.len = 2 + 1 ∧ v'.elem_size = 1 ∧ v'.len ≤ v'.capacity ∧
      liveBytes v' = (liveBytes ⟨2, 2, 1, some [1, 2]⟩).take (0 * 1) ++ [9] ++
        (liveBytes ⟨2, 2, 1, some [1, 2]⟩).drop (0 * 1) :=
  c3_insert_amended ⟨2, 2, 1, some [1, 2]⟩ [1, 2] [9] 0 rfl (by decide)
    (by decide) rfl (by decide)

lemma writeBytes_malloc_full (n : Nat) (src : List Nat) (h : src.length = n) :
    writeBytes (mallocBytes n) 0 src = src := by
  simp [writeBytes, mallocBytes, List.drop_eq_nil_of_le, h]

/-- C4: for every vector `A` with a buffer and `k < A.length`, splitting
`A` at `k` into a freshly created empty vector `B` of the same element
size and then appending `B` back onto `A` succeeds and restores `A`'s
original length and live bytes exactly, leaving `B` empty with no
buffer. -/
theorem c4_split_append_inverse (A B : Vec) (k : Nat) (buf : List Nat)
    (hd : A.data = some buf) (hbl : A.capacity * A.elem_size ≤ buf.length)
    (hlc : A.len ≤ A.capacity) (hk : k < A.len)
    (hB : vec_new A.elem_size = some B) :
    ∃ A1 B1 A2 B2,
      vec_split_at true A B k = some (VEC_OK, A1, B1) ∧
      vec_append true A1 B1 = (VEC_OK, A2, B2) ∧
      A2.len = A.len ∧ A2.elem_size = A.elem_size ∧
      liveBytes A2 = liveBytes A ∧
      B2.len = 0 ∧ B2.capacity = 0 ∧ B2.data = none := by
  have hes0 : A.elem_size ≠ 0 := by
    intro h
    rw [vec_new, if_pos h] at hB
    exact Option.noConfusion hB
  have hBval : B = ⟨0, 0, A.elem_size, none⟩ := by
    rw [vec_new, if_neg hes0] at hB
    exact (Option.some_inj.mp hB).symm
  subst hBval
  have hm1 : k * A.elem_size ≤ A.len * A.elem_size :=
    Nat.mul_le_mul_right _ hk.le
  have hm2 : A.len * A.elem_size ≤ A.capacity * A.elem_size :=
    Nat.mul_le_mul_right _ hlc
  have hACC : k * A.elem_size + (A.len - k) * A.elem_size
      = A.len * A.elem_size := by
    rw [← Nat.add_mul, Nat.add_sub_cancel' hk.le]
  have hlive : liveBytes A = buf.take (A.len * A.elem_size) := by
    simp [liveBytes, hd]
  have hngeK : (k ≥ A.len) = False := eq_false (by omega)
  have hOE : (VEC_OK = VEC_ERR) = False := by decide
  have hnogrow : (k + (A.len - k) > A.capacity) = False := eq_false (by omega)
  have hsrclen : (readBytes buf (k * A.elem_size) ((A.len - k) * A.elem_size)).length
      = (A.len - k) * A.elem_size := by
    simp [readBytes]
    omega
  have hW1 : writeBytes (mallocBytes ((A.len - k) * A.elem_size)) 0
        (readBytes buf (k * A.elem_size) ((A.len - k) * A.elem_size))
      = readBytes buf (k * A.elem_size) ((A.len - k) * A.elem_size) :=
    writeBytes_malloc_full _ _ hsrclen
  refine ⟨⟨k, A.capacity, A.elem_size, some buf⟩,
    ⟨A.len - k, A.len - k, A.elem_size,
      some (writeBytes (mallocBytes ((A.len - k) * A.elem_size)) 0
        (readBytes buf (k * A.elem_size) ((A.len - k) * A.elem_size)))⟩,
    ⟨k + (A.len - k), A.capacity, A.elem_size,
      some (writeBytes buf (k * A.elem_size)
        (readBytes (writeBytes (mallocBytes ((A.len - k) * A.elem_size)) 0
          (readBytes buf (k * A.elem_size) ((A.len - k) * A.elem_size))) 0
          ((A.len - k) * A.elem_size)))⟩,
    ⟨0, 0, A.elem_size, none⟩,
    ?_, ?_, show k + (A.len - k) = A.len by omega, rfl, ?_, rfl, rfl, rfl⟩
  · simp only [vec_split_at, hd, hngeK, hOE, if_true, if_false,
      eq_self_iff_true, ite_true, ite_false]
  · simp only [vec_append, vec_clear, hnogrow, hOE, if_true, if_false,
      eq_self_iff_true, ite_true, ite_false]
  · have hS2 : readBytes (writeBytes (mallocBytes ((A.len - k) * A.elem_size)) 0
          (readBytes buf (k * A.elem_size) ((A.len - k) * A.elem_size))) 0
          ((A.len - k) * A.elem_size)
        = readBytes buf (k * A.elem_size) ((A.len - k) * A.elem_size) := by
      rw [hW1]
      simp only [readBytes, List.drop_zero, List.take_take, Nat.min_self]
    have hA2len : k + (A.len - k) = A.len := by omega
    show (writeBytes buf (k * A.elem_size) _).take ((k + (A.len - k)) * A.elem_size)
        = liveBytes A
    rw [hA2len, hS2, hlive, writeBytes, hsrclen]
    have hTS : (buf.take (k * A.elem_size)
        ++ readBytes buf (k * A.elem_size) ((A.len - k) * A.elem_size)).length
        = A.len * A.elem_size := by
      simp [readBytes]
      omega
    rw [List.take_append_of_le_length (le_of_eq hTS.symm),
      List.take_of_length_le (le_of_eq hTS), ← hACC, List.take_add]
    rfl

/-- Witness for C4 at a concrete two-element vector split at index 1. -/
theorem c4_split_append_inverse_witness :
    ∃ A1 B1 A2 B2,
      vec_split_at true ⟨2, 2, 1, some [1, 2]⟩ ⟨0, 0, 1, none⟩ 1 =
        some (VEC_OK, A1, B1) ∧
      vec_append true A1 B1 = (VEC_OK, A2, B2) ∧
      A2.len = 2 ∧ A2.elem_size = 1 ∧
      liveBytes A2 = liveBytes ⟨2, 2, 1, some [1, 2]⟩ ∧
      B2.len = 0 ∧ B2.capacity = 0 ∧ B2.data = none :=
  c4_split_append_inverse ⟨2, 2, 1, some [1, 2]⟩ ⟨0, 0, 1, none⟩ 1 [1, 2] rfl
    (by decide) (by decide) (by decide) rfl
